import Mathlib

/-!
A shallow embedding of the `antigravity-quota-refresher` program
(`src/trigger.js`, `src/lib/constants.js`, `src/lib/auth.js`), together with
proofs about its trigger pipeline and scheduler.

Conventions of the embedding:
* HTTP traffic is abstracted by per-call response values (an endpoint's
  behaviour is the tuple of responses its requests would receive); a rejected
  promise / thrown exception is a dedicated constructor.
* JS numbers that carry quota fractions are modelled as rationals.  At the one
  comparison the program performs (`remainingValue < 99.5` with
  `remainingValue = remainingFraction * 100`), IEEE doubles agree with exact
  rationals: `fl(0.995) * 100` rounds to exactly `99.5` and the predecessor
  double of `0.995` maps below `99.5`, and `x ↦ fl(x * 100)` is monotone, so
  the gate decides `remainingFraction ≥ 0.995` identically in both models.
* Instants are integer milliseconds on the configured timezone's local clock
  (the configuration allows a fixed UTC offset; `dayjs.tz(...).hour(h)` sets
  wall-clock fields of that zone).
-/

namespace AQR

/-! ## String matching

`/pat/i.test(s)` for the literal patterns of `MODEL_GROUPS`, and
`String.prototype.includes`. -/

/-- Characters of `s`, lower-cased (for the case-insensitive `/…/i` regexes). -/
def lowerChars (s : String) : List Char :=
  s.toList.map Char.toLower

/-- `needle` occurs at the head of `haystack`. -/
def charsMatchAt : List Char → List Char → Bool
  | [], _ => true
  | _ :: _, [] => false
  | a :: as, b :: bs => a == b && charsMatchAt as bs

/-- `needle` occurs somewhere in `haystack`. -/
def charsHaveSub (needle : List Char) : List Char → Bool
  | [] => needle.isEmpty
  | b :: bs => charsMatchAt needle (b :: bs) || charsHaveSub needle bs

/-- `/p/i.test(s)` for a literal (alternation-free) pattern `p`. -/
def strTest (p s : String) : Bool :=
  charsHaveSub (lowerChars p) (lowerChars s)

/-- `s.includes(sub)` (case sensitive). -/
def hasSub (s sub : String) : Bool :=
  charsHaveSub sub.toList s.toList

/-! ## `src/lib/constants.js` -/

/-- One entry of `MODEL_GROUPS`: a canonical pool id and its matcher patterns
(the source stores them as case-insensitive regexes over literal words). -/
structure ModelGroup where
  id : String
  patterns : List String
deriving DecidableEq, Repr

def claudeGroup : ModelGroup := ⟨"Claude", ["claude", "gpt", "oss"]⟩

def geminiProGroup : ModelGroup := ⟨"Gemini 3 Pro", ["gemini-3-pro"]⟩

def geminiFlashGroup : ModelGroup := ⟨"Gemini 3 Flash", ["gemini-3-flash"]⟩

/-- `MODEL_GROUPS` from `src/lib/constants.js` (fixed canonical pool order). -/
def MODEL_GROUPS : List ModelGroup :=
  [claudeGroup, geminiProGroup, geminiFlashGroup]

/-- `ENDPOINTS` from `src/lib/constants.js` (fixed ordered candidate list). -/
def ENDPOINTS : List String :=
  ["https://daily-cloudcode-pa.sandbox.googleapis.com",
   "https://autopush-cloudcode-pa.sandbox.googleapis.com",
   "https://cloudcode-pa.googleapis.com"]

/-! ## `checkQuota` (`src/trigger.js`, lines 90–132) -/

/-- The `quotaInfo` object of a raw catalog entry; either field may be absent. -/
structure QuotaInfo where
  remainingFraction : Option ℚ
  resetTime : Option Int
deriving DecidableEq, Repr

/-- One entry of the `models` catalog returned by `fetchAvailableModels`:
a model identifier, optionally carrying a `quotaInfo` object. -/
structure RawModel where
  modelId : String
  quotaInfo : Option QuotaInfo
deriving DecidableEq, Repr

/-- One row of the summary built by `checkQuota`.  The source additionally
stores two display strings (`remaining`, a fixed-point rendering of
`remainingValue`, and `reset`, a locale rendering of `resetTime`); they are
pure functions of the fields kept here and are used only by `printTable`. -/
structure PoolSummary where
  id : String
  remainingValue : ℚ
  resetKnown : Bool
deriving DecidableEq, Repr

/-- `MODEL_GROUPS.find(g => g.patterns.some(p => p.test(modelId)))`. -/
def classifyModel (modelId : String) : Option ModelGroup :=
  MODEL_GROUPS.find? (fun g => g.patterns.any (fun p => strTest p modelId))

/-- The summary row built from one raw entry:
`quota = info.quotaInfo || {}`, `remaining = (quota.remainingFraction || 0) * 100`
(a present but zero fraction is falsy in JS and yields the same `0`). -/
def summaryOfEntry (g : ModelGroup) (info : Option QuotaInfo) : PoolSummary :=
  let quota := info.getD ⟨none, none⟩
  { id := g.id
    remainingValue := quota.remainingFraction.getD 0 * 100
    resetKnown := quota.resetTime.isSome }

/-- The `for (const [modelId, info] of Object.entries(allModels))` loop of
`checkQuota`, with `summaryMap` as an association list in insertion order:
unmatched entries, entries whose id contains `"image"`, and entries for an
already-present group are dropped. -/
def summaryFold : List RawModel → List PoolSummary → List PoolSummary
  | [], acc => acc
  | e :: rest, acc =>
    match classifyModel e.modelId with
    | none => summaryFold rest acc
    | some g =>
      if hasSub e.modelId "image" then summaryFold rest acc
      else if acc.any (fun s => s.id == g.id) then summaryFold rest acc
      else summaryFold rest (acc ++ [summaryOfEntry g e.quotaInfo])

/-- `MODEL_GROUPS.map(g => summaryMap.get(g.id)).filter(Boolean)`:
the classification result of `checkQuota`, in canonical pool order. -/
def checkQuotaClassify (ms : List RawModel) : List PoolSummary :=
  MODEL_GROUPS.filterMap (fun g => (summaryFold ms []).find? (fun s => s.id == g.id))

/-- Response of the `fetchAvailableModels` call inside `checkQuota`. -/
inductive QuotaFetch
  | netError
  | response (statusCode : Nat) (models : List RawModel)
deriving DecidableEq, Repr

/-- `checkQuota`: throws (`Except.error`) on a rejected request or a non-200
status, otherwise classifies the catalog. -/
def checkQuota : QuotaFetch → Except String (List PoolSummary)
  | .netError => .error "network error"
  | .response status ms =>
    if status == 200 then .ok (checkQuotaClassify ms)
    else .error "Failed to fetch models"

/-! ## The pool loop of `main` (`src/trigger.js`, lines 343–448) -/

/-- One entry of the `POOLS` list in `main`. -/
structure Pool where
  id : String
  triggerId : String
  name : String
deriving DecidableEq, Repr

def POOLS : List Pool :=
  [⟨"Claude", "claude-sonnet-4-5", "Claude"⟩,
   ⟨"Gemini 3 Pro", "gemini-3-pro-high", "Gemini 3 Pro"⟩,
   ⟨"Gemini 3 Flash", "gemini-3-flash", "Gemini 3 Flash"⟩]

/-- What the single `triggerQuota` request for a pool comes back with:
an HTTP status, or a rejected promise (network error). -/
inductive TriggerResponse
  | status (code : Nat)
  | netError
deriving DecidableEq, Repr

/-- Per-pool outcome of the trigger loop.  `Errored` is the
`catch (e)` branch around `triggerQuota` (a thrown exception, logged and
skipped, as opposed to a `Failed` HTTP status). -/
inductive Outcome
  | Success
  | SkippedCycleActive
  | SkippedNoInfo
  | RateLimited
  | Failed
  | Errored
deriving DecidableEq, Repr

/-- The observable result of one iteration of the pool loop:
the recorded outcome, how many trigger network calls were issued for the
pool, and the contribution to `successCount`. -/
structure PoolResult where
  poolId : String
  outcome : Outcome
  networkCalls : Nat
  successInc : Nat
deriving DecidableEq, Repr

/-- One iteration of `for (const pool of POOLS)` in `main`:
no summary row → `Skipped (No Info)`; `remainingValue < 99.5` →
`Skipped (cycle active)` with `successCount++`; otherwise one `triggerQuota`
call whose status is mapped `429 ↦ RateLimited`, `200 ↦ Success`
(`successCount++`), anything else `↦ Failed`. -/
def poolStep (models : List PoolSummary) (respond : String → TriggerResponse)
    (pool : Pool) : PoolResult :=
  match models.find? (fun m => m.id == pool.id) with
  | none => ⟨pool.id, .SkippedNoInfo, 0, 0⟩
  | some modelInfo =>
    if modelInfo.remainingValue < 99.5 then ⟨pool.id, .SkippedCycleActive, 0, 1⟩
    else
      match respond pool.triggerId with
      | .netError => ⟨pool.id, .Errored, 1, 0⟩
      | .status code =>
        if code == 429 then ⟨pool.id, .RateLimited, 1, 0⟩
        else if code == 200 then ⟨pool.id, .Success, 1, 1⟩
        else ⟨pool.id, .Failed, 1, 0⟩

/-- The whole pool loop; it has no `break`, so every pool is processed. -/
def triggerPools (models : List PoolSummary) (respond : String → TriggerResponse) :
    List PoolResult :=
  POOLS.map (poolStep models respond)

/-- The `successCount` tally after the pool loop. -/
def successCount (rs : List PoolResult) : Nat :=
  (rs.map (fun r => r.successInc)).sum

/-! ## The endpoint failover loop of `main` (`src/trigger.js`, lines 349–466) -/

/-- Response of the `loadCodeAssist` health request.  `body = none` models a
200-response whose payload failed to parse (`res.body === null` in
`httpRequest`), in which case reading `res.body.cloudaicompanionProject`
throws; `body = some proj` is a parsed (possibly empty) object with
`proj = cloudaicompanionProject?.id`. -/
inductive HealthFetch
  | netError
  | response (statusCode : Nat) (body : Option (Option String))
deriving DecidableEq, Repr

/-- The hardcoded fallback project id in `main`. -/
def DEFAULT_PROJECT_ID : String := "bamboo-precept-lgxtn"

/-- The health-check step of `main` for one endpoint: `some projectId` when it
succeeds, `none` when the loop `continue`s to the next endpoint. -/
def healthStep : HealthFetch → Option String
  | .netError => none
  | .response status body =>
    if status == 200 then
      match body with
      | none => none
      | some proj => some (proj.getD DEFAULT_PROJECT_ID)
    else none

/-- Everything one endpoint would answer during a run. -/
structure EndpointBehavior where
  health : HealthFetch
  quota : QuotaFetch
  trigger : String → TriggerResponse

/-- A completed run on one endpoint. -/
structure EndpointRun where
  projectId : String
  results : List PoolResult
deriving DecidableEq, Repr

/-- The body of `for (const ep of ENDPOINTS)` in `main`: `none` means
`continue` (health check failed, quota check threw, zero classified pools, or
`successCount === 0`); `some` means the `return` after
`✓ Done. Quota triggers processed successfully.`. -/
def runEndpoint (b : EndpointBehavior) : Option EndpointRun :=
  match healthStep b.health with
  | none => none
  | some projectId =>
    match checkQuota b.quota with
    | .error _ => none
    | .ok models =>
      if models.isEmpty then none
      else
        let results := triggerPools models b.trigger
        if successCount results == 0 then none
        else some ⟨projectId, results⟩

/-- Result of a whole run of `main`. -/
inductive RunResult
  | done (run : EndpointRun)
  | allEndpointsFailed
deriving DecidableEq, Repr

/-- The endpoint failover loop: first endpoint that completes wins; falling
off the list throws `All endpoints failed or are rate-limited.`, which the
outer handler turns into `process.exit(1)`. -/
def mainRun : List EndpointBehavior → RunResult
  | [] => .allEndpointsFailed
  | b :: bs =>
    match runEndpoint b with
    | some run => .done run
    | none => mainRun bs

/-- The process exit code of `main` for each run result. -/
def exitCode : RunResult → Nat
  | .done _ => 0
  | .allEndpointsFailed => 1

/-! ## `getAccessToken` (`src/lib/auth.js`, lines 116–125) -/

/-- The token-exchange response as `getAccessToken` sees it.
`accessToken = none` models `res.body.access_token` being absent (including a
null/unparsed body). -/
structure TokenResponse where
  statusCode : Nat
  accessToken : Option String
  raw : String
deriving DecidableEq, Repr

/-- Result of the single `httpRequest` in `getAccessToken`. -/
inductive TokenTransport
  | response (r : TokenResponse)
  | netError
deriving DecidableEq, Repr

/-- `getAccessToken`, over the stream of responses the transport would return
to successive requests.  The body performs exactly one `httpRequest` (index
`0`) and contains no loop; the first component counts the requests issued.
`if (res.body && res.body.access_token)`: an empty-string token is falsy in
JS and also takes the failure branch. -/
def getAccessToken (transport : Nat → TokenTransport) : Nat × Except String String :=
  match transport 0 with
  | .netError => (1, .error "transport error")
  | .response r =>
    (1, match r.accessToken with
        | some tok =>
          if tok == "" then .error ("Token refresh failed: " ++ r.raw)
          else .ok tok
        | none => .error ("Token refresh failed: " ++ r.raw))

/-! ## The scheduler (`index.js` part of the sources: `QuotaOptimizer`) -/

def msPerDay : Int := 86400000

def msPerHour : Int := 3600000

/-- The pair returned by `calculateTriggerTime`. -/
structure TriggerTimes where
  triggerTime : Int
  refreshTime : Int
deriving DecidableEq, Repr

/-- `QuotaOptimizer.calculateTriggerTime`, with instants as integer local-clock
milliseconds (fixed-offset timezone).  `tod` is `workStartTime` (`"HH:MM"`) as
milliseconds after local midnight; the candidate is today's date at that
time-of-day (`.second(0).millisecond(0)`), advanced one calendar day exactly
when `triggerTime.isBefore(now)` — a strict *before* comparison, so an exact
hit is kept. The refresh estimate is `quotaCycle = 5` hours later. -/
def calculateTriggerTime (tod now : Int) : TriggerTimes :=
  let candidate := now - now % msPerDay + tod
  let trigger := if candidate < now then candidate + msPerDay else candidate
  ⟨trigger, trigger + 5 * msPerHour⟩

/-- `MAX_RETRIES` from `index.js`. -/
def MAX_RETRIES : Nat := 3

/-- `RETRY_DELAY_MS` from `index.js` ("5 seconds, doubles each retry"). -/
def RETRY_DELAY_MS : Nat := 5000

/-- Observable events of `executeTrigger`: one `runScript` invocation with its
outcome, or one `await sleep(ms)` backoff. -/
inductive ExecEvent
  | attemptRun (n : Nat) (ok : Bool)
  | wait (ms : Nat)
deriving DecidableEq, Repr

/-- The `for (let attempt = 1; attempt <= MAX_RETRIES; attempt++)` loop of
`QuotaOptimizer.executeTrigger`, over the outcomes `results n` each
`runScript` call would have.  `remaining + 1` is the number of attempts still
allowed, so `remaining == 0` is `attempt === MAX_RETRIES`: a success returns
immediately, a failure with attempts left sleeps
`RETRY_DELAY_MS * 2 ** (attempt - 1)`, and the last failure neither sleeps nor
retries. -/
def retryLoop (results : Nat → Bool) (attempt : Nat) : Nat → List ExecEvent × Bool
  | 0 => ([], false)
  | remaining + 1 =>
    if results attempt then ([.attemptRun attempt true], true)
    else if remaining == 0 then ([.attemptRun attempt false], false)
    else
      let rest := retryLoop results (attempt + 1) remaining
      (.attemptRun attempt false :: .wait (RETRY_DELAY_MS * 2 ^ (attempt - 1)) :: rest.1,
       rest.2)

/-- `QuotaOptimizer.executeTrigger`: the event trace and whether some attempt
succeeded.  It never throws: after the last failure it only logs
`All 3 attempts failed` and returns. -/
def executeTrigger (results : Nat → Bool) : List ExecEvent × Bool :=
  retryLoop results 1 MAX_RETRIES

/-- Observable events of one `scheduleNext` cycle. -/
inductive SchedEvent
  | announce (triggerTime refreshTime : Int)
  | waitMs (n : Int)
  | runAttempt (n : Nat) (ok : Bool)
  | backoff (ms : Nat)
  | rearm
deriving DecidableEq, Repr

/-- Renaming of trigger-execution events into scheduler-trace events. -/
def execToSched : ExecEvent → SchedEvent
  | .attemptRun n ok => .runAttempt n ok
  | .wait ms => .backoff ms

/-- One cycle of `QuotaOptimizer.scheduleNext`, from the wall-clock instant
`now` at which it runs: recompute the trigger instant, log it, and — unless
`dryRun`, which only prints and returns — arm a single
`setTimeout(…, max 0 delay)`, run `executeTrigger` on wake, then arm the
1-hour cool-down `setTimeout(() => this.scheduleNext(), 60 * 60 * 1000)`,
which recomputes the next day's trigger from the then-current clock. -/
def scheduleCycle (dryRun : Bool) (tod now : Int) (results : Nat → Bool) :
    List SchedEvent :=
  let times := calculateTriggerTime tod now
  if dryRun then [.announce times.triggerTime times.refreshTime]
  else
    [.announce times.triggerTime times.refreshTime,
     .waitMs (max 0 (times.triggerTime - now))]
    ++ (executeTrigger results).1.map execToSched
    ++ [.waitMs (60 * 60 * 1000), .rearm]

/-! ## Scheduler theorems -/

/-- C1 (counterexample): with the configured time-of-day 12:00 and `now`
exactly today-at-12:00 (local milliseconds `43200000` on day 0),
`calculateTriggerTime` returns `now` itself: the result is not strictly after
`now`, and the candidate does not roll to the next day — `isBefore` is a
strict comparison in the opposite direction from what the claim states. -/
theorem c1_exact_hit_counterexample :
    (calculateTriggerTime 43200000 43200000).triggerTime = 43200000 ∧
    ¬ (43200000 < (calculateTriggerTime 43200000 43200000).triggerTime) := by
  constructor <;> decide

/-- C1 (amended): for every configured time-of-day `tod` (milliseconds after
local midnight) and every instant `now`, `calculateTriggerTime` returns an
instant at or after `now` and less than 24 hours ahead; when `now` equals
today's instant at the configured time exactly, the candidate does not count
as passed and is returned unchanged (the trigger fires immediately, with no
roll to the next day). -/
theorem c1_trigger_in_next_window (tod now : Int)
    (h0 : 0 ≤ tod) (h1 : tod < msPerDay) :
    now ≤ (calculateTriggerTime tod now).triggerTime ∧
    (calculateTriggerTime tod now).triggerTime - now < msPerDay ∧
    (now % msPerDay = tod → (calculateTriggerTime tod now).triggerTime = now) := by
  simp only [calculateTriggerTime, msPerDay] at *
  have hm0 : 0 ≤ now % (86400000 : Int) := Int.emod_nonneg now (by norm_num)
  have hm1 : now % (86400000 : Int) < 86400000 := Int.emod_lt_of_pos now (by norm_num)
  refine ⟨?_, ?_, fun h => ?_⟩ <;> split <;> omega

/-- Witness for `c1_trigger_in_next_window` at `tod` 12:00, `now = 100`. -/
theorem c1_trigger_in_next_window_witness :
    (100 : Int) ≤ (calculateTriggerTime 43200000 100).triggerTime ∧
    (calculateTriggerTime 43200000 100).triggerTime - 100 < msPerDay ∧
    ((100 : Int) % msPerDay = 43200000 →
      (calculateTriggerTime 43200000 100).triggerTime = 100) :=
  c1_trigger_in_next_window 43200000 100 (by norm_num) (by norm_num [msPerDay])

/-- C2: complete characterization of `executeTrigger` over the outcomes of the
individual attempts: at most 3 attempts are made, stopping at the first
success; the backoff slept after failed attempt `k` (when another attempt
follows) is `5000 * 2 ^ (k - 1)` ms — 5s between attempts 1 and 2, 10s
between attempts 2 and 3 (the 20s value of the schedule would follow a third
failure, but then no further attempt or delay happens); after the third
failure the run is marked failed (`false`). -/
theorem c2_retry_contract (r : Nat → Bool) :
    executeTrigger r =
      if r 1 then ([.attemptRun 1 true], true)
      else if r 2 then
        ([.attemptRun 1 false, .wait 5000, .attemptRun 2 true], true)
      else if r 3 then
        ([.attemptRun 1 false, .wait 5000, .attemptRun 2 false, .wait 10000,
          .attemptRun 3 true], true)
      else
        ([.attemptRun 1 false, .wait 5000, .attemptRun 2 false, .wait 10000,
          .attemptRun 3 false], false) := by
  by_cases h1 : r 1 <;> by_cases h2 : r 2 <;> by_cases h3 : r 3 <;>
    simp [executeTrigger, MAX_RETRIES, RETRY_DELAY_MS, retryLoop, h1, h2, h3]

/-- C9: in standing (non-dry-run) mode, for every possible sequence of attempt
outcomes — including all three attempts failing — the `scheduleNext` cycle
trace ends with the fixed 1-hour cool-down wait followed by re-arming the
scheduler (which recomputes the next instant from the then-current clock);
`executeTrigger` is a total function, so a failed run never terminates the
scheduling loop. -/
theorem c9_reschedules_after_any_outcome (tod now : Int) (results : Nat → Bool) :
    List.IsSuffix [SchedEvent.waitMs (60 * 60 * 1000), SchedEvent.rearm]
      (scheduleCycle false tod now results) := by
  refine ⟨[SchedEvent.announce (calculateTriggerTime tod now).triggerTime
            (calculateTriggerTime tod now).refreshTime,
           SchedEvent.waitMs (max 0 ((calculateTriggerTime tod now).triggerTime - now))]
          ++ (executeTrigger results).1.map execToSched, ?_⟩
  simp [scheduleCycle]

/-! ## Auth theorems -/

/-- C8 (counterexample): a non-2xx token-exchange response whose body carries
a bearer token is returned as success — `getAccessToken` never examines the
status code, contradicting "every non-2xx response yields an auth error". -/
theorem c8_non2xx_with_token_counterexample :
    getAccessToken (fun _ => .response ⟨500, some "tok", "raw"⟩)
      = (1, Except.ok "tok") := rfl

/-- C8 (amended): `getAccessToken` issues exactly one request with no internal
retry, and succeeds exactly when the (single) response carries a non-empty
bearer-token field; it fails when the token field is absent (including an
unparseable body) or the transport errors.  The HTTP status code is never
consulted. -/
theorem c8_token_exchange (transport : Nat → TokenTransport) :
    (getAccessToken transport).1 = 1 ∧
    ((∃ tok, (getAccessToken transport).2 = Except.ok tok) ↔
      (∃ r tok, transport 0 = TokenTransport.response r ∧
        r.accessToken = some tok ∧ tok ≠ "")) := by
  rcases h : transport 0 with r | _
  · rcases hr : r.accessToken with _ | tok
    · simp [getAccessToken, h, hr]
    · by_cases he : tok = "" <;> simp [getAccessToken, h, hr, he]
  · simp [getAccessToken, h]

/-! ## Pool-gating and outcome theorems -/

/-- C3: the gate of the trigger loop.  The inspector stores
`remainingValue = remainingFraction * 100`, and comparing it against `99.5`
decides exactly `remainingFraction < 0.995`; a pool at or above the threshold
gets exactly one trigger network call (whatever that call then returns), and a
pool below it gets zero network calls, is recorded as skipped with the cycle
active, and contributes `1` to `successCount`. -/
theorem c3_gate (models : List PoolSummary) (respond : String → TriggerResponse)
    (pool : Pool) (mi : PoolSummary)
    (hfind : models.find? (fun m => m.id == pool.id) = some mi) :
    (∀ (g : ModelGroup) (q : QuotaInfo) (f : ℚ), q.remainingFraction = some f →
      ((summaryOfEntry g (some q)).remainingValue < 99.5 ↔ f < 0.995)) ∧
    (99.5 ≤ mi.remainingValue → (poolStep models respond pool).networkCalls = 1) ∧
    (mi.remainingValue < 99.5 →
      poolStep models respond pool = ⟨pool.id, .SkippedCycleActive, 0, 1⟩) := by
  refine ⟨fun g q f hf => ?_, fun hge => ?_, fun hlt => ?_⟩
  · simp only [summaryOfEntry, hf, Option.getD_some]
    constructor <;> intro h <;> nlinarith
  · rcases hr : respond pool.triggerId with code | _
    · by_cases h429 : code == 429
      · simp [poolStep, hfind, not_lt.mpr hge, hr, h429]
      · by_cases h200 : code == 200 <;>
          simp [poolStep, hfind, not_lt.mpr hge, hr, h429, h200]
    · simp [poolStep, hfind, not_lt.mpr hge, hr]
  · simp [poolStep, hfind, hlt]

/-- Witness for `c3_gate`: a Claude summary row at 99.4% is skipped with zero
network calls and counts toward `successCount`. -/
theorem c3_gate_witness :
    poolStep [⟨"Claude", 994 / 10, false⟩] (fun _ => .status 200)
        ⟨"Claude", "claude-sonnet-4-5", "Claude"⟩
      = ⟨"Claude", .SkippedCycleActive, 0, 1⟩ :=
  (c3_gate [⟨"Claude", 994 / 10, false⟩] (fun _ => .status 200)
      ⟨"Claude", "claude-sonnet-4-5", "Claude"⟩ ⟨"Claude", 994 / 10, false⟩
      (by rfl)).2.2 (by norm_num)

/-- C7: outcome mapping of the trigger call for an eligible pool: HTTP 200 ↦
`Success` with `successCount` incremented, HTTP 429 ↦ `RateLimited`, any other
non-2xx status ↦ `Failed`, the latter two contributing nothing to
`successCount`; and the loop never aborts — the result at every position `k`
of the fixed pool order is the independent `poolStep` of that pool, whatever
the other pools' responses were. -/
theorem c7_outcome_mapping (models : List PoolSummary)
    (respond : String → TriggerResponse) (pool : Pool) (mi : PoolSummary)
    (hfind : models.find? (fun m => m.id == pool.id) = some mi)
    (helig : 99.5 ≤ mi.remainingValue) :
    (respond pool.triggerId = .status 200 →
      poolStep models respond pool = ⟨pool.id, .Success, 1, 1⟩) ∧
    (respond pool.triggerId = .status 429 →
      poolStep models respond pool = ⟨pool.id, .RateLimited, 1, 0⟩) ∧
    (∀ s, respond pool.triggerId = .status s → ¬ (200 ≤ s ∧ s < 300) → s ≠ 429 →
      poolStep models respond pool = ⟨pool.id, .Failed, 1, 0⟩) ∧
    (∀ k : Nat, (triggerPools models respond)[k]? =
      (POOLS[k]?).map (poolStep models respond)) := by
  refine ⟨fun hs => ?_, fun hs => ?_, fun s hs hno h429 => ?_, fun k => ?_⟩
  · simp [poolStep, hfind, not_lt.mpr helig, hs]
  · simp [poolStep, hfind, not_lt.mpr helig, hs]
  · have h200 : s ≠ 200 := fun he => hno (by omega)
    simp [poolStep, hfind, not_lt.mpr helig, hs, h429, h200]
  · simp [triggerPools]

/-- Witness for `c7_outcome_mapping`: a full Claude pool whose trigger call
answers 503 is recorded `Failed` with one network call and no success. -/
theorem c7_outcome_mapping_witness :
    poolStep [⟨"Claude", 100, false⟩] (fun _ => .status 503)
        ⟨"Claude", "claude-sonnet-4-5", "Claude"⟩
      = ⟨"Claude", .Failed, 1, 0⟩ :=
  ((c7_outcome_mapping [⟨"Claude", 100, false⟩] (fun _ => .status 503)
      ⟨"Claude", "claude-sonnet-4-5", "Claude"⟩ ⟨"Claude", 100, false⟩
      (by rfl) (by norm_num)).2.2.1) 503 rfl (by omega) (by omega)

/-! ## Endpoint-prober theorems -/

/-- C5: the health probe for one endpoint succeeds exactly on an HTTP 200
response with a well-formed (parsed) body, in which case the project id is the
one the response carries, defaulting to the hardcoded
`bamboo-precept-lgxtn` when absent; on any failure — network error, non-200
status, or a 200 whose body did not parse — the run advances to the next
candidate endpoint. -/
theorem c5_health_probe (b : EndpointBehavior) (bs : List EndpointBehavior) :
    (∀ pid, healthStep b.health = some pid ↔
      ∃ proj, b.health = .response 200 (some proj) ∧
        pid = proj.getD DEFAULT_PROJECT_ID) ∧
    (healthStep b.health = none → mainRun (b :: bs) = mainRun bs) := by
  constructor
  · intro pid
    rcases hh : b.health with _ | ⟨status, body⟩
    · simp [healthStep]
    · rcases body with _ | proj
      · by_cases hst : status = 200 <;> simp [healthStep, hst]
      · by_cases hst : status = 200
        · subst hst
          simp [healthStep, eq_comm]
        · simp [healthStep, hst]
  · intro hnone
    simp [mainRun, runEndpoint, hnone]

/-- Witness for `c5_health_probe`: an endpoint whose health check returns 503
is skipped: the run on it plus an empty remainder fails over to the empty
remainder (`allEndpointsFailed`). -/
theorem c5_health_probe_witness :
    mainRun [⟨.response 503 (some none), .response 200 [], fun _ => .status 200⟩]
      = mainRun [] :=
  (c5_health_probe
      ⟨.response 503 (some none), .response 200 [], fun _ => .status 200⟩ []).2
    (by rfl)

/-- C4: the endpoint failover contract of `main`.  With the health check
passed: a failed quota inspection advances to the next endpoint, a quota
inspection classifying zero pools advances to the next endpoint, a pool loop
ending with `successCount = 0` advances to the next endpoint, and a pool loop
with `successCount ≥ 1` terminates the run as done (carrying the per-pool
results, so individual pool failures do not fail the run); exhausting every
endpoint yields `allEndpointsFailed` with process exit code 1. -/
theorem c4_endpoint_failover (b : EndpointBehavior) (bs : List EndpointBehavior)
    (pid : String) (hh : healthStep b.health = some pid) :
    (∀ msg, checkQuota b.quota = .error msg → mainRun (b :: bs) = mainRun bs) ∧
    (checkQuota b.quota = .ok [] → mainRun (b :: bs) = mainRun bs) ∧
    (∀ models, checkQuota b.quota = .ok models → models ≠ [] →
      successCount (triggerPools models b.trigger) = 0 →
      mainRun (b :: bs) = mainRun bs) ∧
    (∀ models, checkQuota b.quota = .ok models → models ≠ [] →
      successCount (triggerPools models b.trigger) ≠ 0 →
      mainRun (b :: bs) = .done ⟨pid, triggerPools models b.trigger⟩) ∧
    (mainRun [] = .allEndpointsFailed ∧ exitCode .allEndpointsFailed = 1) := by
  refine ⟨fun msg hq => ?_, fun hq => ?_, fun models hq hne hsc => ?_,
    fun models hq hne hsc => ?_, rfl, rfl⟩
  · simp [mainRun, runEndpoint, hh, hq]
  · simp [mainRun, runEndpoint, hh, hq]
  · rcases models with _ | ⟨m, ms⟩
    · exact absurd rfl hne
    · simp [mainRun, runEndpoint, hh, hq, hsc]
  · rcases models with _ | ⟨m, ms⟩
    · exact absurd rfl hne
    · simp [mainRun, runEndpoint, hh, hq, hsc]

/-- Witness for `c4_endpoint_failover`: a single healthy endpoint whose
catalog holds one fresh Claude model and whose trigger call answers 200
completes the run as done with one success. -/
theorem c4_endpoint_failover_witness :
    mainRun [⟨.response 200 (some none),
              .response 200 [⟨"claude-x", some ⟨some 1, none⟩⟩],
              fun _ => .status 200⟩]
      = .done ⟨DEFAULT_PROJECT_ID,
          [⟨"Claude", .Success, 1, 1⟩,
           ⟨"Gemini 3 Pro", .SkippedNoInfo, 0, 0⟩,
           ⟨"Gemini 3 Flash", .SkippedNoInfo, 0, 0⟩]⟩ := by
  have hcl : classifyModel "claude-x" = some claudeGroup := by decide
  have himg : hasSub "claude-x" "image" = false := by decide
  have hq : checkQuota (QuotaFetch.response 200 [⟨"claude-x", some ⟨some 1, none⟩⟩])
      = .ok [⟨"Claude", 100, false⟩] := by
    simp [checkQuota, checkQuotaClassify, summaryFold, hcl, himg, summaryOfEntry,
      MODEL_GROUPS, List.filterMap, List.find?, claudeGroup, geminiProGroup,
      geminiFlashGroup]
  have hsc : successCount
      (triggerPools [⟨"Claude", 100, false⟩] (fun _ => .status 200)) ≠ 0 := by
    norm_num [successCount, triggerPools, POOLS, poolStep, List.find?,
      (by decide : (("Claude" : String) == "Gemini 3 Pro") = false),
      (by decide : (("Claude" : String) == "Gemini 3 Flash") = false)]
  have h := (c4_endpoint_failover
      ⟨.response 200 (some none),
       .response 200 [⟨"claude-x", some ⟨some 1, none⟩⟩],
       fun _ => .status 200⟩ [] DEFAULT_PROJECT_ID (by rfl)).2.2.2.1
      [⟨"Claude", 100, false⟩] hq (by simp) hsc
  rw [h]
  norm_num [triggerPools, POOLS, poolStep, List.find?,
    (by decide : (("Claude" : String) == "Gemini 3 Pro") = false),
    (by decide : (("Claude" : String) == "Gemini 3 Flash") = false)]

/-! ## Classification lemmas -/

/-- An entry the `checkQuota` loop drops (unmatched, or containing `"image"`)
leaves the summary map untouched. -/
theorem summaryFold_drop (e : RawModel) (ms : List RawModel)
    (acc : List PoolSummary)
    (h : classifyModel e.modelId = none ∨ hasSub e.modelId "image" = true) :
    summaryFold (e :: ms) acc = summaryFold ms acc := by
  rcases hc : classifyModel e.modelId with _ | g
  · simp [summaryFold, hc]
  · rcases h with h | h
    · rw [hc] at h; cases h
    · simp [summaryFold, hc, h]

theorem find?_append_left {α : Type} (l₁ l₂ : List α) (p : α → Bool) (s : α)
    (h : l₁.find? p = some s) : (l₁ ++ l₂).find? p = some s := by
  induction l₁ with
  | nil => simp [List.find?] at h
  | cons a rest ih =>
    by_cases ha : p a
    · rw [List.find?_cons_of_pos _ ha] at h
      simpa [List.find?_cons_of_pos _ ha] using h
    · rw [List.find?_cons_of_neg _ ha] at h
      simpa [List.find?_cons_of_neg _ ha] using ih h

theorem any_imp_find?_some {α : Type} (l : List α) (p : α → Bool)
    (h : l.any p = true) : ∃ s, l.find? p = some s := by
  induction l with
  | nil => simp at h
  | cons a rest ih =>
    by_cases ha : p a
    · exact ⟨a, List.find?_cons_of_pos _ ha⟩
    · simp only [List.any_cons, Bool.or_eq_true] at h
      rcases h with h | h
      · exact absurd h ha
      · obtain ⟨s, hs⟩ := ih h
        exact ⟨s, by rw [List.find?_cons_of_neg _ ha]; exact hs⟩

/-- Entries already present in the summary map are never overwritten by later
raw entries: a lookup that succeeds on the accumulator is unchanged by the
rest of the fold. -/
theorem summaryFold_preserves (ms : List RawModel) :
    ∀ (acc : List PoolSummary) (id : String),
      acc.any (fun s => s.id == id) = true →
      (summaryFold ms acc).find? (fun s => s.id == id)
        = acc.find? (fun s => s.id == id) := by
  induction ms with
  | nil => intro acc id _; rfl
  | cons e rest ih =>
    intro acc id h
    rcases hc : classifyModel e.modelId with _ | g
    · rw [summaryFold_drop e rest acc (Or.inl hc)]
      exact ih acc id h
    · by_cases himg : hasSub e.modelId "image" = true
      · rw [summaryFold_drop e rest acc (Or.inr himg)]
        exact ih acc id h
      · by_cases hdup : acc.any (fun s => s.id == g.id) = true
        · rw [show summaryFold (e :: rest) acc = summaryFold rest acc from by
            simp [summaryFold, hc, himg, hdup]]
          exact ih acc id h
        · rw [show summaryFold (e :: rest) acc
              = summaryFold rest (acc ++ [summaryOfEntry g e.quotaInfo]) from by
            simp [summaryFold, hc, himg, hdup]]
          rw [ih _ id (by simp [List.any_append, h])]
          obtain ⟨s, hs⟩ := any_imp_find?_some acc _ h
          rw [find?_append_left _ _ _ _ hs, hs]

/-- The ids of a group-indexed `filterMap` (each produced row carrying its
group's id) form a subsequence of the group ids, in order. -/
theorem classify_ids_sublist (gs : List ModelGroup)
    (f : ModelGroup → Option PoolSummary)
    (hf : ∀ g s, f g = some s → s.id = g.id) :
    List.Sublist ((gs.filterMap f).map (fun s => s.id))
      (gs.map (fun g => g.id)) := by
  induction gs with
  | nil => simp
  | cons g rest ih =>
    rcases hfg : f g with _ | s
    · simp only [List.filterMap_cons, hfg, List.map_cons]
      exact ih.cons _
    · simp only [List.filterMap_cons, hfg, List.map_cons]
      rw [hf g s hfg]
      exact ih.cons₂ _

/-- With pairwise-distinct group ids, looking a group's id up in the
`filterMap` over all groups recovers exactly that group's row. -/
theorem find?_filterMap_eq (gs : List ModelGroup)
    (f : ModelGroup → Option PoolSummary)
    (hf : ∀ g s, f g = some s → s.id = g.id) (g : ModelGroup) (hg : g ∈ gs)
    (hnd : (gs.map (fun x => x.id)).Nodup) :
    (gs.filterMap f).find? (fun s => s.id == g.id) = f g := by
  induction gs with
  | nil => cases hg
  | cons g0 rest ih =>
    rw [List.map_cons] at hnd
    obtain ⟨hnd0, hndr⟩ := List.nodup_cons.mp hnd
    rcases List.mem_cons.mp hg with rfl | hgr
    · rcases hfg : f g with _ | s
      · have hrest : (rest.filterMap f).find? (fun s => s.id == g.id) = none := by
          rw [List.find?_eq_none]
          intro x hx
          obtain ⟨g1, hg1, hfg1⟩ := List.mem_filterMap.mp hx
          have hxid : x.id = g1.id := hf g1 x hfg1
          have hne : g1.id ≠ g.id := fun he => hnd0 (he ▸ List.mem_map_of_mem _ hg1)
          simp [hxid, hne]
        simp only [List.filterMap_cons, hfg]
        rw [hrest]
      · have hs : s.id = g.id := hf g s hfg
        simp only [List.filterMap_cons, hfg]
        rw [List.find?_cons_of_pos _ (by simp [hs])]
    · rcases hfg : f g0 with _ | s
      · simp only [List.filterMap_cons, hfg]
        exact ih hgr hndr
      · have hs : s.id = g0.id := hf g0 s hfg
        have hne2 : g0.id ≠ g.id := fun he => hnd0 (he ▸ List.mem_map_of_mem _ hgr)
        simp only [List.filterMap_cons, hfg]
        rw [List.find?_cons_of_neg _ (by simp [hs, hne2])]
        exact ih hgr hndr

/-- A raw entry counts for pool `id` when it classifies to that pool and is
not an excluded `"image"` entry. -/
def entryMatches (id : String) (e : RawModel) : Bool :=
  match classifyModel e.modelId with
  | some g => g.id == id && !(hasSub e.modelId "image")
  | none => false

/-- The summary map holds a row for `id` exactly when the accumulator already
did or some raw entry counts for `id`. -/
theorem summaryFold_any (ms : List RawModel) :
    ∀ (acc : List PoolSummary) (id : String),
      (summaryFold ms acc).any (fun s => s.id == id)
        = (acc.any (fun s => s.id == id) || ms.any (entryMatches id)) := by
  induction ms with
  | nil => intro acc id; simp [summaryFold]
  | cons e rest ih =>
    intro acc id
    rcases hc : classifyModel e.modelId with _ | g
    · rw [summaryFold_drop e rest acc (Or.inl hc), ih acc id]
      simp [List.any_cons, entryMatches, hc]
    · by_cases himg : hasSub e.modelId "image" = true
      · rw [summaryFold_drop e rest acc (Or.inr himg), ih acc id]
        simp [List.any_cons, entryMatches, hc, himg]
      · by_cases hdup : acc.any (fun s => s.id == g.id) = true
        · rw [show summaryFold (e :: rest) acc = summaryFold rest acc from by
            simp [summaryFold, hc, himg, hdup]]
          rw [ih acc id]
          simp only [List.any_cons, entryMatches, hc, himg]
          by_cases hgid : g.id = id
          · subst hgid; simp [hdup]
          · simp [hgid, (by simpa using hgid : (g.id == id) = false)]
        · rw [show summaryFold (e :: rest) acc
              = summaryFold rest (acc ++ [summaryOfEntry g e.quotaInfo]) from by
            simp [summaryFold, hc, himg, hdup]]
          rw [ih _ id]
          simp [List.any_append, List.any_cons, entryMatches, hc, himg,
            summaryOfEntry, Bool.or_assoc]

/-- C6: quota classification.  The returned summary's ids are a subsequence
of the fixed canonical pool order (so never in discovery order and omitting
pools with zero matches); classification follows the first matching rule in
the ordered matcher list (an id matching the Claude rule classifies as Claude
even if it also matches later rules, and an id missing the Claude rule but
matching the Gemini-3-Pro rule classifies as Gemini 3 Pro); unmatched and
`"image"` entries are dropped without effect; and the first raw entry that
matches a pool determines that pool's quota row for the whole catalog —
whatever later entries for the same pool `ms` contains. -/
theorem c6_classification (ms : List RawModel) (e : RawModel) (g : ModelGroup) :
    List.Sublist ((checkQuotaClassify ms).map (fun s => s.id))
      (MODEL_GROUPS.map (fun gr => gr.id)) ∧
    (∀ s : String, claudeGroup.patterns.any (fun p => strTest p s) = true →
      classifyModel s = some claudeGroup) ∧
    (∀ s : String, claudeGroup.patterns.any (fun p => strTest p s) = false →
      geminiProGroup.patterns.any (fun p => strTest p s) = true →
      classifyModel s = some geminiProGroup) ∧
    (classifyModel e.modelId = none →
      checkQuotaClassify (e :: ms) = checkQuotaClassify ms) ∧
    (hasSub e.modelId "image" = true →
      checkQuotaClassify (e :: ms) = checkQuotaClassify ms) ∧
    (classifyModel e.modelId = some g → hasSub e.modelId "image" = false →
      (summaryFold (e :: ms) []).find? (fun s => s.id == g.id)
          = some (summaryOfEntry g e.quotaInfo) ∧
      summaryOfEntry g e.quotaInfo ∈ checkQuotaClassify (e :: ms)) := by
  refine ⟨?_, fun s h => ?_, fun s h1 h2 => ?_, fun h => ?_, fun h => ?_,
    fun hc himg => ?_⟩
  · exact classify_ids_sublist MODEL_GROUPS _
      (fun gr s h => by simpa using List.find?_some h)
  · unfold classifyModel MODEL_GROUPS
    rw [List.find?_cons_of_pos _ (by simpa using h)]
  · unfold classifyModel MODEL_GROUPS
    rw [List.find?_cons_of_neg _ (by simpa using h1),
      List.find?_cons_of_pos _ (by simpa using h2)]
  · unfold checkQuotaClassify
    rw [summaryFold_drop e ms [] (Or.inl h)]
  · unfold checkQuotaClassify
    rw [summaryFold_drop e ms [] (Or.inr h)]
  · have hstep : summaryFold (e :: ms) []
        = summaryFold ms [summaryOfEntry g e.quotaInfo] := by
      simp [summaryFold, hc, himg]
    have hfind : (summaryFold (e :: ms) []).find? (fun s => s.id == g.id)
        = some (summaryOfEntry g e.quotaInfo) := by
      rw [hstep, summaryFold_preserves ms _ g.id (by simp [summaryOfEntry])]
      simp [summaryOfEntry]
    refine ⟨hfind, ?_⟩
    exact List.mem_filterMap.mpr ⟨g, List.mem_of_find?_eq_some hc, hfind⟩

/-- Witness for `c6_classification`: the catalog `[claude-x (100%), gpt-y
(50%)]` yields the Claude pool row of the *first* entry, and that row is in
the returned summary. -/
theorem c6_classification_witness :
    (summaryFold [⟨"claude-x", some ⟨some 1, none⟩⟩,
                  ⟨"gpt-y", some ⟨some (1 / 2 : ℚ), none⟩⟩] []).find?
        (fun s => s.id == claudeGroup.id)
      = some (summaryOfEntry claudeGroup (some ⟨some 1, none⟩)) ∧
    summaryOfEntry claudeGroup (some ⟨some 1, none⟩)
      ∈ checkQuotaClassify [⟨"claude-x", some ⟨some 1, none⟩⟩,
                            ⟨"gpt-y", some ⟨some (1 / 2 : ℚ), none⟩⟩] :=
  (c6_classification [⟨"gpt-y", some ⟨some (1 / 2 : ℚ), none⟩⟩]
      ⟨"claude-x", some ⟨some 1, none⟩⟩ claudeGroup).2.2.2.2.2
    (by decide) (by decide)

/-- C10: a raw entry that matches a pool but carries no `quotaInfo` object or
no `remainingFraction` field yields a summary row with remaining quota `0`;
a pool whose row reads `0` is skipped as cycle-active with zero network calls
and counts toward `successCount`; and the `Skipped (No Info)` outcome occurs
exactly when no raw entry matched the pool at all (classification to the
pool, net of the `"image"` exclusion). -/
theorem c10_defaulted_quota (g : ModelGroup) (pool : Pool) (raw : List RawModel)
    (respond : String → TriggerResponse) (q : Option QuotaInfo)
    (hg : g ∈ MODEL_GROUPS) (hpid : pool.id = g.id) :
    ((q = none ∨ ∃ qi, q = some qi ∧ qi.remainingFraction = none) →
      (summaryOfEntry g q).remainingValue = 0) ∧
    (∀ (models : List PoolSummary) (mi : PoolSummary),
      models.find? (fun m => m.id == pool.id) = some mi →
      mi.remainingValue = 0 →
      poolStep models respond pool = ⟨pool.id, .SkippedCycleActive, 0, 1⟩) ∧
    ((poolStep (checkQuotaClassify raw) respond pool).outcome
        = .SkippedNoInfo ↔
      raw.any (entryMatches g.id) = false) := by
  refine ⟨?_, fun models mi hfind hzero => ?_, ?_⟩
  · rintro (rfl | ⟨qi, rfl, hqi⟩)
    · simp [summaryOfEntry]
    · simp [summaryOfEntry, hqi]
  · have hlt : mi.remainingValue < 99.5 := by rw [hzero]; norm_num
    simp [poolStep, hfind, hlt]
  · have hnd : (MODEL_GROUPS.map (fun x => x.id)).Nodup := by decide
    have hkey : (checkQuotaClassify raw).find? (fun s => s.id == pool.id)
        = (summaryFold raw []).find? (fun s => s.id == g.id) := by
      rw [hpid]
      exact find?_filterMap_eq MODEL_GROUPS _
        (fun gr s h => by simpa using List.find?_some h) g hg hnd
    have hiff : (poolStep (checkQuotaClassify raw) respond pool).outcome
        = Outcome.SkippedNoInfo ↔
        (checkQuotaClassify raw).find? (fun s => s.id == pool.id) = none := by
      rcases hfr : (checkQuotaClassify raw).find? (fun s => s.id == pool.id)
        with _ | mi
      · simp [poolStep, hfr]
      · have hL : ¬ ((poolStep (checkQuotaClassify raw) respond pool).outcome
            = Outcome.SkippedNoInfo) := by
          simp only [poolStep, hfr]
          by_cases hlt : mi.remainingValue < 99.5
          · simp [hlt]
          · simp only [if_neg hlt]
            rcases hresp : respond pool.triggerId with code | _
            · by_cases h429 : code == 429
              · simp [h429]
              · by_cases h200 : code == 200 <;> simp [h429, h200]
            · simp
        exact iff_of_false hL (by rw [hfr]; simp)
    rw [hiff, hkey]
    constructor
    · intro hnone
      by_contra hany
      rw [Bool.not_eq_false] at hany
      have hsome : (summaryFold raw []).any (fun s => s.id == g.id) = true := by
        rw [summaryFold_any raw [] g.id]
        simp [hany]
      obtain ⟨s, hs⟩ := any_imp_find?_some _ _ hsome
      rw [hnone] at hs
      cases hs
    · intro hfalse
      rw [List.find?_eq_none]
      intro x hx hxid
      have hsome : (summaryFold raw []).any (fun s => s.id == g.id) = true :=
        List.any_eq_true.mpr ⟨x, hx, hxid⟩
      rw [summaryFold_any raw [] g.id] at hsome
      simp [hfalse] at hsome

/-- Witness for `c10_defaulted_quota`: a catalog holding only a Gemini 3
Flash entry leaves the Claude pool with no summary row, so the trigger loop
records `Skipped (No Info)` for it. -/
theorem c10_defaulted_quota_witness :
    (poolStep (checkQuotaClassify [⟨"gemini-3-flash", none⟩])
        (fun _ => .status 200)
        ⟨"Claude", "claude-sonnet-4-5", "Claude"⟩).outcome
      = .SkippedNoInfo :=
  ((c10_defaulted_quota claudeGroup ⟨"Claude", "claude-sonnet-4-5", "Claude"⟩
      [⟨"gemini-3-flash", none⟩] (fun _ => .status 200) none
      (by decide) rfl).2.2).mpr (by decide)

end AQR
